import Mathlib

/-!
Verification development for the TidyJSON module
(src/tidyJSON/src/TidyJSON.py): a shallow embedding of the text
normalizer `clean_json_string`, the scanner `TidyJSONParser`, and the
facade `encode` property, together with theorems settling the spec's
claims about them.

Text is modelled as `List Char`; the parser cursor is a `Nat` offset,
threaded explicitly.  Python exceptions are modelled by the `PyErr` sum
type.  Character predicates (`str.isspace`, `str.isdigit`) are modelled
at ASCII scope; all inputs examined in the theorems are ASCII.
-/

/-- Error kinds of the `TidyErrorType` enum. -/
inductive TidyErrorType
  | invalidCharacter
  | missingBracket
  | missingQuote
  | unexpectedToken
deriving DecidableEq, Repr

/-- The Python exceptions the parser can raise.

* `errorManager t p` - the structured `ErrorManager` exception carrying an
  `ErrorContext` with error type `t` and position `p`;
* `valueErrorExpected c i` - `expect_and_skip`'s
  `ValueError(f"Expected '{c}' at index {i}")` (c, i interpolated);
* `valueErrorUnterminated start` - `parse_string`'s
  `ValueError(f"Unterminated string starting at index {start}")`;
* `valueErrorInvalidNumber start` - `parse_numeric_value`'s
  `ValueError(f"Invalid number format at index {start}")`;
* `attributeError` - the `AttributeError` raised by `char.isdigit()`
  in `get_parser_method` when `get_next_char` returned the bool `False`
  at end of buffer. -/
inductive PyErr
  | errorManager (t : TidyErrorType) (position : Nat)
  | valueErrorExpected (expected : Char) (idx : Nat)
  | valueErrorUnterminated (start : Nat)
  | valueErrorInvalidNumber (start : Nat)
  | attributeError
deriving DecidableEq, Repr

/-- The JSON value tree produced by the parser.  Python `int` is `Int`,
Python `float` is modelled as the exact rational the decimal literal
denotes (IEEE rounding is not modelled; the claims only concern the
int-versus-float kind and small literals).  Objects are insertion-ordered
association lists, mirroring a Python `dict`. -/
inductive JValue
  | null
  | bool (b : Bool)
  | int (z : Int)
  | float (q : ℚ)
  | str (s : List Char)
  | arr (items : List JValue)
  | obj (members : List (List Char × JValue))

/-- Python truthiness of the characters `str.isspace` recognizes, at
ASCII scope (the normalizer's `\s` class and `str.strip`). -/
def isPySpace (c : Char) : Bool :=
  c = ' ' || c = '\t' || c = '\n' || c = '\r' || c = '\x0b' || c = '\x0c'

/-- Removal of leading and trailing whitespace: both the
`re.sub(r"^\s+|\s+$", "", s)` pass and the final `.strip()` of
`clean_json_string` (they coincide on whole strings). -/
def stripChars (cs : List Char) : List Char :=
  ((cs.dropWhile isPySpace).reverse.dropWhile isPySpace).reverse

/-- Scan for the closing `*/` of a block comment, as the lazy regex
`/\*.*?\*/` does after matching `/*`: `.` does not match a newline, so a
newline (or end of text) before any `*/` means the match attempt fails.
Returns the text after the earliest `*/`. -/
def findCommentClose : List Char → Option (List Char)
  | [] => none
  | '\n' :: _ => none
  | '*' :: '/' :: rest => some rest
  | _ :: rest => findCommentClose rest

/-- Whether the text contains the two-character comment-close sequence
star-slash anywhere (used to state where the lazy comment regex finds
its earliest close). -/
def hasCloseSeq : List Char → Bool
  | '*' :: '/' :: _ => true
  | _ :: rest => hasCloseSeq rest
  | [] => false

theorem findCommentClose_length :
    ∀ l r, findCommentClose l = some r → r.length < l.length := by
  intro l
  induction l using findCommentClose.induct with
  | case1 => intro r h; simp [findCommentClose] at h
  | case2 => intro r h; simp [findCommentClose] at h
  | case3 rest => intro r h
                  simp only [findCommentClose, Option.some.injEq] at h
                  subst h
                  simp only [List.length_cons]
                  omega
  | case4 c rest h1 h2 ih =>
      intro r h
      rw [findCommentClose.eq_def] at h
      split at h
      · exact absurd h (by simp)
      · exact absurd h (by simp)
      · rename_i rest1 heq
        injection heq with hc hr
        subst hr
        injection h with h2'
        subst h2'
        exact absurd hc (fun hcc => h2 rest1 hcc rfl)
      · rename_i head tail hna hnb heq
        injection heq with hc hr
        subst hr
        exact Nat.lt_trans (ih r h) (by simp)

/-- Global substitution `re.sub(r"/\*.*?\*/", "", s)`: scan left to
right; at each `/*` try to complete a (newline-free, lazily matched)
comment; on success drop it and continue after the match, on failure
emit the `/` and rescan from the `*`. -/
def removeComments : List Char → List Char
  | '/' :: '*' :: rest =>
    match h : findCommentClose rest with
    | some rest2 => removeComments rest2
    | none => '/' :: removeComments ('*' :: rest)
  | c :: rest => c :: removeComments rest
  | [] => []
termination_by l => l.length
decreasing_by
  · exact Nat.lt_trans (findCommentClose_length rest rest2 h) (by simp; omega)
  · simp
  · simp

/-- Python `str.replace` of the two-character sequence `[a, b]` by the
single character `rep`, scanning left to right without overlap. -/
def replaceTwo (a b rep : Char) : List Char → List Char
  | c1 :: c2 :: rest =>
    if c1 = a ∧ c2 = b then rep :: replaceTwo a b rep rest
    else c1 :: replaceTwo a b rep (c2 :: rest)
  | l => l

/-- The `clean_json_string` normalizer: strip, remove `/* ... */`
comments, collapse the two-character escapes `\n` and `\r` to spaces,
strip again. -/
def cleanJsonString (cs : List Char) : List Char :=
  stripChars (replaceTwo '\\' 'r' ' ' (replaceTwo '\\' 'n' ' '
    (removeComments (stripChars cs))))

/-- The `error_context` snippet computed by `ErrorContext`:
`json_str[max(0, position - 10) : min(len(json_str), position + 10)]`
(Nat subtraction realizes the `max(0, _)` clamp). -/
def errorContextSnippet (jsonStr : List Char) (position : Nat) : List Char :=
  (jsonStr.drop (position - 10)).take
    (min jsonStr.length (position + 10) - (position - 10))

/-- `get_next_char`: the character at the cursor, or `none` (Python's
`False`) past the end of the buffer. -/
def getNextChar (s : List Char) (i : Nat) : Option Char := s[i]?

/-- `skip_whitespace`: advance the cursor past whitespace. -/
def skipWhitespace (s : List Char) (i : Nat) : Nat :=
  if h : i < s.length then
    if isPySpace s[i] then skipWhitespace s (i + 1) else i
  else i
termination_by s.length - i

/-- The scan loop of `parse_string`: advance until the current character
is `"` (no escape handling in the source); at end of buffer raise
`ValueError(f"Unterminated string starting at index {start}")` (start
interpolated).  Returns the offset of the closing quote; errors pair the
exception with the offset at which it is raised. -/
def scanToQuote (s : List Char) (start j : Nat) : Except (PyErr × Nat) Nat :=
  if h : j < s.length then
    if s[j] = '"' then Except.ok j else scanToQuote s start (j + 1)
  else Except.error (PyErr.valueErrorUnterminated start, j)
termination_by s.length - j

/-- `parse_string`: skip the opening quote, scan to the next `"`, return
the characters in between and the offset just past the closing quote. -/
def parseStringAt (s : List Char) (i : Nat) :
    Except (PyErr × Nat) (List Char × Nat) :=
  match scanToQuote s (i + 1) (i + 1) with
  | Except.error e => Except.error e
  | Except.ok j => Except.ok ((s.drop (i + 1)).take (j - (i + 1)), j + 1)

/-- Membership in `"0123456789-.eE"`, the character class `parse_number`
scans over. -/
def isNumChar (c : Char) : Bool :=
  c.isDigit || c = '-' || c = '.' || c = 'e' || c = 'E'

/-- The scan loop of `parse_number`: advance while the current character
is in `"0123456789-.eE"` (stops at end of buffer, where `get_next_char`
returns the falsy `False`). -/
def scanNumber (s : List Char) (j : Nat) : Nat :=
  if h : j < s.length then
    if isNumChar s[j] then scanNumber s (j + 1) else j
  else j
termination_by s.length - j

/-- Value of a list of decimal digit characters, most significant
first. -/
def digitsToNat (ds : List Char) : Nat :=
  ds.foldl (fun acc c => acc * 10 + (c.toNat - '0'.toNat)) 0

/-- Python `int(s)` restricted to the strings `parse_numeric_value` can
pass it, whose characters come from `"0123456789-"` (a string containing
`.`, `e` or `E` takes the float branch instead): an optional single
leading minus followed by at least one digit; everything else raises
`ValueError`.  (Whitespace, `+` and `_`, which `int` also accepts,
cannot occur in a scanned number substring.) -/
def pyIntOfChars (cs : List Char) : Option Int :=
  match cs with
  | '-' :: r =>
    if r ≠ [] && r.all Char.isDigit then some (-(digitsToNat r : Int))
    else none
  | _ =>
    if cs ≠ [] && cs.all Char.isDigit then some ((digitsToNat cs : Int))
    else none

/-- The exact rational denoted by a decimal float literal with integer
digits `ip`, fraction digits `fp` and decimal exponent `e`. -/
def floatVal (neg : Bool) (ip fp : List Char) (e : Int) : ℚ :=
  let m : ℚ := (digitsToNat (ip ++ fp) : ℚ)
  let q := m * (10 : ℚ) ^ (e - (fp.length : Int))
  if neg then -q else q

/-- Python `float(s)` restricted to the strings `parse_numeric_value`
can pass it (characters from `"0123456789-.eE"`): `[-] digits [. digits]
[(e|E) [-] digits]` with at least one mantissa digit and at least one
exponent digit if an exponent marker is present; everything else raises
`ValueError`.  The value is the exact rational the literal denotes
(IEEE rounding not modelled; `+`, `_`, whitespace, `inf` and `nan`,
which `float` also accepts, cannot occur in a scanned substring). -/
def pyFloatOfChars (cs : List Char) : Option ℚ :=
  let p := match cs with
    | '-' :: r => (true, r)
    | _ => (false, cs)
  let neg := p.1
  let ip := p.2.takeWhile Char.isDigit
  let cs2 := p.2.dropWhile Char.isDigit
  let q := match cs2 with
    | '.' :: r => (r.takeWhile Char.isDigit, r.dropWhile Char.isDigit)
    | _ => (([] : List Char), cs2)
  let fp := q.1
  let cs3 := q.2
  if ip = [] && fp = [] then none
  else
    match cs3 with
    | [] => some (floatVal neg ip fp 0)
    | c :: r =>
      if c = 'e' || c = 'E' then
        let p2 := match r with
          | '-' :: rr => (true, rr)
          | _ => (false, r)
        let ed := p2.2.takeWhile Char.isDigit
        let r2 := p2.2.dropWhile Char.isDigit
        if ed = [] || r2 ≠ [] then none
        else
          some (floatVal neg ip fp
            (if p2.1 then -(digitsToNat ed : Int) else (digitsToNat ed : Int)))
      else none

/-- `parse_numeric_value`: float conversion when the substring contains
`.`, `e` or `E`, otherwise int conversion; a failed conversion raises
`ValueError(f"Invalid number format at index {start}")` (start is the
production's start offset, interpolated into the message). -/
def parseNumericValue (numberStr : List Char) (start : Nat) :
    Except PyErr JValue :=
  if numberStr.contains '.' || numberStr.contains 'e'
      || numberStr.contains 'E' then
    match pyFloatOfChars numberStr with
    | some q => Except.ok (JValue.float q)
    | none => Except.error (PyErr.valueErrorInvalidNumber start)
  else
    match pyIntOfChars numberStr with
    | some z => Except.ok (JValue.int z)
    | none => Except.error (PyErr.valueErrorInvalidNumber start)

/-- `parse_number`: scan greedily over the numeric character class, then
convert the captured substring with `parse_numeric_value`. -/
def parseNumber (s : List Char) (i : Nat) :
    Except (PyErr × Nat) (JValue × Nat) :=
  let j := scanNumber s i
  match parseNumericValue ((s.drop i).take (j - i)) i with
  | Except.error msg => Except.error (msg, j)
  | Except.ok v => Except.ok (v, j)

/-- `json_str.startswith(lit, i)`. -/
def startsWithAt (s : List Char) (i : Nat) (lit : List Char) : Bool :=
  lit.isPrefixOf (s.drop i)

/-- `parse_boolean_or_null`: try `true`, `false`, `null` in the source's
dict order by prefix comparison at the cursor; on a match advance by the
literal's length; otherwise raise `ErrorManager` with
`UNEXPECTED_TOKEN` at the current offset. -/
def parseBooleanOrNull (s : List Char) (i : Nat) :
    Except (PyErr × Nat) (JValue × Nat) :=
  if startsWithAt s i ("true".toList) then Except.ok (JValue.bool true, i + 4)
  else if startsWithAt s i ("false".toList) then
    Except.ok (JValue.bool false, i + 5)
  else if startsWithAt s i ("null".toList) then Except.ok (JValue.null, i + 4)
  else
    Except.error (PyErr.errorManager TidyErrorType.unexpectedToken i, i)

/-- `expect_and_skip`: if the current character is `expected` advance
past it, otherwise raise `ValueError(f"Expected '{c}' at index {i}")`
(c, i interpolated). -/
def expectAndSkip (expected : Char) (s : List Char) (i : Nat) :
    Except (PyErr × Nat) Nat :=
  if getNextChar s i = some expected then Except.ok (i + 1)
  else Except.error (PyErr.valueErrorExpected expected i, i)

/-- `collection[key] = value` on a Python dict modelled as an
insertion-ordered association list: an existing key keeps its position
and gets the new value; a new key is appended. -/
def dictInsert (kvs : List (List Char × JValue)) (k : List Char)
    (v : JValue) : List (List Char × JValue) :=
  match kvs with
  | [] => [(k, v)]
  | (k', v') :: rest =>
    if k' = k then (k', v) :: rest else (k', v') :: dictInsert rest k v

/-- The step after a parsed member/element in `parse_collection`'s
loop: `self.skip_whitespace()`, then if the current character is a comma
consume it and skip whitespace again. -/
def afterElement (s : List Char) (i : Nat) : Nat :=
  if getNextChar s (skipWhitespace s i) = some ',' then
    skipWhitespace s (skipWhitespace s i + 1)
  else skipWhitespace s i

mutual

/-- `TidyJSONParser.parse`, the value dispatcher: skip whitespace,
inspect the lookahead and dispatch by first character.  `none` models
running out of fuel (the Python recursion has no fuel; every claim is
stated for a fuel on which the parse completes).  At end of buffer
`get_parser_method(False)` evaluates `False.isdigit()` and raises
`AttributeError`.  Results and errors carry the cursor offset. -/
def parseValue : Nat → List Char → Nat →
    Option (Except (PyErr × Nat) (JValue × Nat))
  | 0, _, _ => none
  | fuel + 1, s, i =>
    match getNextChar s (skipWhitespace s i) with
    | none => some (Except.error (PyErr.attributeError, skipWhitespace s i))
    | some c =>
      if c = '{' then parseCollection fuel true s (skipWhitespace s i)
      else if c = '[' then parseCollection fuel false s (skipWhitespace s i)
      else if c = '"' then
        some ((parseStringAt s (skipWhitespace s i)).map
          (fun p => (JValue.str p.1, p.2)))
      else if c = 't' ∨ c = 'f' ∨ c = 'n' then
        some (parseBooleanOrNull s (skipWhitespace s i))
      else if c.isDigit ∨ c = '-' then
        some (parseNumber s (skipWhitespace s i))
      else
        some (Except.error
          (PyErr.errorManager TidyErrorType.unexpectedToken
            (skipWhitespace s i), skipWhitespace s i))

/-- `parse_collection` up to its loop: skip the start character and
enter the element loop with an empty collection.  `isObj` selects the
object behaviour (`end_char='}'`, keys via `parse_string`, delimiter
`:`) over the array behaviour (`end_char=']'`, elements via `parse`). -/
def parseCollection : Nat → Bool → List Char → Nat →
    Option (Except (PyErr × Nat) (JValue × Nat))
  | 0, _, _, _ => none
  | fuel + 1, isObj, s, i => parseCollLoop fuel isObj s (i + 1) [] []

/-- The `while (char := self.get_next_char()) != end_char` loop of
`parse_collection`, with the object (`isinstance(collection, dict)`)
and array branches spelled out: stop just past the end character;
otherwise parse a key/value member (object) or an element (array), then
skip whitespace and an optional comma, and continue.  Note the loop
re-checks the end character immediately after consuming a comma. -/
def parseCollLoop : Nat → Bool → List Char → Nat →
    List (List Char × JValue) → List JValue →
    Option (Except (PyErr × Nat) (JValue × Nat))
  | 0, _, _, _, _, _ => none
  | fuel + 1, true, s, i, kvs, xs =>
    if getNextChar s i = some '}' then
      some (Except.ok (JValue.obj kvs, i + 1))
    else
      match parseStringAt s i with
      | Except.error e => some (Except.error e)
      | Except.ok (key, i1) =>
        match expectAndSkip ':' s i1 with
        | Except.error e => some (Except.error e)
        | Except.ok i2 =>
          match parseValue fuel s i2 with
          | none => none
          | some (Except.error e) => some (Except.error e)
          | some (Except.ok (v, i3)) =>
            parseCollLoop fuel true s (afterElement s i3)
              (dictInsert kvs key v) xs
  | fuel + 1, false, s, i, kvs, xs =>
    if getNextChar s i = some ']' then
      some (Except.ok (JValue.arr xs, i + 1))
    else
      match parseValue fuel s i with
      | none => none
      | some (Except.error e) => some (Except.error e)
      | some (Except.ok (v, i1)) =>
        parseCollLoop fuel false s (afterElement s i1) kvs (xs ++ [v])

end

/-- Construction of a `TidyJSONParser`: `__attrs_post_init__` cleans the
input with `clean_json_string` and runs `parse` from offset 0.  The fuel
`2 * length + 8` exceeds the number of production calls any input of
that length can cause; the universally quantified theorems below hold
for every fuel. -/
def tidyParse (input : String) :
    Option (Except (PyErr × Nat) (JValue × Nat)) :=
  let s := cleanJsonString input.toList
  parseValue (2 * s.length + 8) s 0

/-- Decimal digits of a natural number, most significant first; the
first argument is fuel (any value at least the number of digits works,
the number itself is passed below). -/
def natDigitsAux : Nat → Nat → List Char
  | 0, _ => []
  | fuel + 1, n =>
    if n = 0 then []
    else natDigitsAux fuel (n / 10) ++ [Char.ofNat ('0'.toNat + n % 10)]

/-- Decimal rendering of a Python int, as `repr`/`json.dumps` print it. -/
def intToDecimal (z : Int) : List Char :=
  match z with
  | Int.ofNat n => if n = 0 then ['0'] else natDigitsAux n n
  | Int.negSucc m => '-' :: natDigitsAux (m + 1) (m + 1)

/-- The string-escaping of `json.dumps` for the characters occurring in
the values examined here (`\u` escapes of other control and non-ASCII
characters are not modelled; every theorem below serializes ASCII
without further control characters). -/
def pyStrEscape (cs : List Char) : List Char :=
  (cs.map (fun c =>
    if c = '"' then ['\\', '"']
    else if c = '\\' then ['\\', '\\']
    else if c = '\n' then ['\\', 'n']
    else if c = '\r' then ['\\', 'r']
    else if c = '\t' then ['\\', 't']
    else [c])).flatten

/-- `4 * lvl` spaces: the indentation `json.dumps(..., indent=4)` puts
before an element at nesting level `lvl`. -/
def indentChars (lvl : Nat) : List Char := List.replicate (4 * lvl) ' '

mutual

/-- `json.dumps(value, indent=4)`: the serialization the facade's
`encode` is documented to produce (its actual `dump`/`dumps` calls are
broken, see `encodeFacade`).  Ints render in decimal, strings quoted and
escaped, non-empty containers put each item on its own line indented by
four spaces per level, separated by a comma plus newline, with a colon
and space between key and value; empty containers render as two
bracket characters.  The float case uses Python's `repr` shortest-round-trip
rendering, which is floating-point behaviour and is not modelled; no
theorem below serializes a float. -/
def pyDumpsVal : JValue → Nat → List Char
  | JValue.null, _ => "null".toList
  | JValue.bool true, _ => "true".toList
  | JValue.bool false, _ => "false".toList
  | JValue.int z, _ => intToDecimal z
  | JValue.float _, _ => []
  | JValue.str s, _ => '"' :: (pyStrEscape s ++ ['"'])
  | JValue.arr [], _ => "[]".toList
  | JValue.arr (x :: xs), lvl =>
    '[' :: '\n' :: (pyDumpsItems (x :: xs) (lvl + 1)
      ++ '\n' :: (indentChars lvl ++ [']']))
  | JValue.obj [], _ => ['\x7b', '\x7d']
  | JValue.obj (m :: ms), lvl =>
    '\x7b' :: '\n' :: (pyDumpsMembers (m :: ms) (lvl + 1)
      ++ '\n' :: (indentChars lvl ++ ['\x7d']))

/-- Array items of `json.dumps(..., indent=4)`, each indented on its own
line, separated by comma + newline. -/
def pyDumpsItems : List JValue → Nat → List Char
  | [], _ => []
  | [x], lvl => indentChars lvl ++ pyDumpsVal x lvl
  | x :: y :: xs, lvl =>
    indentChars lvl ++ pyDumpsVal x lvl
      ++ ',' :: '\n' :: pyDumpsItems (y :: xs) lvl

/-- Object members of `json.dumps(..., indent=4)`: quoted escaped key,
`: `, value. -/
def pyDumpsMembers : List (List Char × JValue) → Nat → List Char
  | [], _ => []
  | [(k, v)], lvl =>
    indentChars lvl ++ '"' :: (pyStrEscape k
      ++ '"' :: ':' :: ' ' :: pyDumpsVal v lvl)
  | (k, v) :: m :: ms, lvl =>
    indentChars lvl ++ '"' :: (pyStrEscape k
      ++ '"' :: ':' :: ' ' :: pyDumpsVal v lvl)
      ++ ',' :: '\n' :: pyDumpsMembers (m :: ms) lvl

end

/-- `json.dumps(value, indent=4)` at top level. -/
def pyDumps (v : JValue) : List Char := pyDumpsVal v 0

/-- Python truthiness of a decoded value: `None`, `False`, `0`, `0.0`,
the empty string, the empty list and the empty dict are falsy. -/
def pyTruthy : JValue → Bool
  | JValue.null => false
  | JValue.bool b => b
  | JValue.int z => z ≠ 0
  | JValue.float q => q ≠ 0
  | JValue.str s => !s.isEmpty
  | JValue.arr xs => !xs.isEmpty
  | JValue.obj ms => !ms.isEmpty

/-- Outcomes of the facade's `encode` property. -/
inductive EncodeResult
  | typeErrorStrictKw
  | typeErrorMissingObj
  | valueErrorNoData
deriving DecidableEq, Repr

/-- The facade's `encode` property, modelled faithfully from its source:

* `if self.save_path:` - with a (truthy) save path it opens the file and
  calls `dump(obj=self.json, fp=f, indent=4, strict=False)`; `json.dump`
  forwards the unknown `strict` keyword to `JSONEncoder.__init__`, which
  raises `TypeError` (after the file has already been opened and
  truncated), so nothing is ever written;
* `elif self.json:` - with no save path and a truthy decoded value it
  calls `dumps(strict=False)`, which raises `TypeError` because the
  positional `obj` argument is missing, so the serialized text is never
  returned;
* `else:` - otherwise it raises the documented
  `ValueError("TidyJSON object has no data to encode ...")`; a present
  but falsy value (for example an empty object) takes this branch. -/
def encodeFacade (savePath : Option (List Char)) (json : Option JValue) :
    EncodeResult :=
  if (match savePath with
      | some p => p ≠ []
      | none => false : Bool) then EncodeResult.typeErrorStrictKw
  else if (match json with
      | some v => pyTruthy v
      | none => false : Bool) then EncodeResult.typeErrorMissingObj
  else EncodeResult.valueErrorNoData

/-- Final cursor offset of a parse step, on success or at the raise. -/
def residx {α : Type} : Except (PyErr × Nat) (α × Nat) → Nat
  | Except.error (_, j) => j
  | Except.ok (_, j) => j

/-- Whether a parse step succeeded. -/
def resOk {α : Type} : Except (PyErr × Nat) (α × Nat) → Bool
  | Except.ok _ => true
  | Except.error _ => false

theorem skipWhitespace_ge (s : List Char) (i : Nat) :
    i ≤ skipWhitespace s i := by
  induction i using skipWhitespace.induct s with
  | case1 x h hsp ih =>
    rw [skipWhitespace, dif_pos h, if_pos hsp]
    omega
  | case2 x h hsp =>
    rw [skipWhitespace, dif_pos h, if_neg hsp]
  | case3 x h =>
    rw [skipWhitespace, dif_neg h]

theorem skipWhitespace_le (s : List Char) (i : Nat) (hi : i ≤ s.length) :
    skipWhitespace s i ≤ s.length := by
  induction i using skipWhitespace.induct s with
  | case1 x h hsp ih =>
    rw [skipWhitespace, dif_pos h, if_pos hsp]
    exact ih (by omega)
  | case2 x h hsp =>
    rw [skipWhitespace, dif_pos h, if_neg hsp]
    omega
  | case3 x h =>
    rw [skipWhitespace, dif_neg h]
    exact hi

theorem getNextChar_lt {s : List Char} {i : Nat} {c : Char}
    (h : getNextChar s i = some c) : i < s.length := by
  by_contra hn
  rw [getNextChar, List.getElem?_eq_none (by omega)] at h
  exact Option.noConfusion h

theorem scanToQuote_spec (s : List Char) (start : Nat) : ∀ j,
    scanToQuote s start j =
      if (s.drop j).contains '"' then
        Except.ok (j + ((s.drop j).takeWhile (fun c => c != '"')).length)
      else
        Except.error (PyErr.valueErrorUnterminated start,
          j + (s.drop j).length) := by
  intro j
  induction j using scanToQuote.induct s start with
  | case1 x h hq =>
    rw [scanToQuote, dif_pos h, if_pos hq]
    rw [List.drop_eq_getElem_cons h, hq]
    simp
  | case2 x h hq ih =>
    rw [scanToQuote, dif_pos h, if_neg hq, ih, List.drop_eq_getElem_cons h]
    have h1 : (s[x] != '"') = true := by simp [bne_iff_ne]; exact hq
    have h2 : ('"' == s[x]) = false := by
      simp only [beq_eq_false_iff_ne, ne_eq]
      exact fun e => hq e.symm
    simp only [List.contains_cons, h2, Bool.false_or, List.takeWhile_cons, h1,
      if_true, List.length_cons]
    split
    · simp only [Except.ok.injEq]
      omega
    · simp only [Except.error.injEq, Prod.mk.injEq, and_true, true_and,
        eq_self_iff_true]
      omega
  | case3 x h =>
    rw [scanToQuote, dif_neg h]
    rw [List.drop_eq_nil_of_le (by omega)]
    simp

theorem scanNumber_spec (s : List Char) : ∀ j,
    scanNumber s j = j + ((s.drop j).takeWhile isNumChar).length := by
  intro j
  induction j using scanNumber.induct s with
  | case1 x h hn ih =>
    rw [scanNumber, dif_pos h, if_pos hn, ih, List.drop_eq_getElem_cons h]
    simp only [List.takeWhile_cons, hn, if_true, List.length_cons]
    omega
  | case2 x h hn =>
    rw [scanNumber, dif_pos h, if_neg hn, List.drop_eq_getElem_cons h]
    simp only [List.takeWhile_cons]
    rw [if_neg hn]
    simp
  | case3 x h =>
    rw [scanNumber, dif_neg h, List.drop_eq_nil_of_le (by omega)]
    simp

theorem takeWhile_take_eq {p : Char → Bool} (l : List Char) :
    l.take ((l.takeWhile p).length) = l.takeWhile p :=
  (List.prefix_iff_eq_take.mp (List.takeWhile_prefix p)).symm

theorem takeWhile_length_lt_of_contains {l : List Char}
    (h : l.contains '"' = true) :
    (l.takeWhile (fun c => c != '"')).length < l.length := by
  induction l with
  | nil => simp [List.contains_nil] at h
  | cons a l ih =>
    by_cases ha : a = '"'
    · subst ha
      simp [List.takeWhile_cons]
    · have hbne : (a != '"') = true := by simp [bne_iff_ne]; exact ha
      have h' : l.contains '"' = true := by
        simp only [List.contains_cons] at h
        rcases Bool.or_eq_true_iff.mp h with h1 | h1
        · exact absurd (beq_iff_eq.mp h1).symm ha
        · exact h1
      simp only [List.takeWhile_cons, hbne, if_true, List.length_cons]
      exact Nat.succ_lt_succ (ih h')

theorem parseStringAt_spec (s : List Char) (i : Nat) :
    parseStringAt s i =
      if (s.drop (i + 1)).contains '"' then
        Except.ok ((s.drop (i + 1)).takeWhile (fun c => c != '"'),
          i + 1 + ((s.drop (i + 1)).takeWhile (fun c => c != '"')).length + 1)
      else
        Except.error (PyErr.valueErrorUnterminated (i + 1),
          i + 1 + (s.drop (i + 1)).length) := by
  rw [parseStringAt, scanToQuote_spec]
  by_cases hc : (s.drop (i + 1)).contains '"'
  · rw [if_pos hc, if_pos hc]
    simp only [Nat.add_sub_cancel_left, takeWhile_take_eq]
  · rw [if_neg hc, if_neg hc]

theorem parseNumber_spec (s : List Char) (i : Nat) :
    parseNumber s i =
      match parseNumericValue ((s.drop i).takeWhile isNumChar) i with
      | Except.error msg =>
        Except.error (msg, i + ((s.drop i).takeWhile isNumChar).length)
      | Except.ok v =>
        Except.ok (v, i + ((s.drop i).takeWhile isNumChar).length) := by
  rw [parseNumber, scanNumber_spec]
  simp only [Nat.add_sub_cancel_left, takeWhile_take_eq]

theorem startsWithAt_bound {s lit : List Char} {i : Nat} (hne : lit ≠ [])
    (h : startsWithAt s i lit = true) : i + lit.length ≤ s.length := by
  rw [startsWithAt, List.isPrefixOf_iff_prefix] at h
  have h1 : lit.length ≤ (s.drop i).length := h.length_le
  rw [List.length_drop] at h1
  have h2 : 0 < lit.length := List.length_pos.mpr hne
  omega

theorem parseStringAt_bounds {s : List Char} {i : Nat}
    (hi : i ≤ s.length) :
    i ≤ residx (parseStringAt s i) ∧
      residx (parseStringAt s i) ≤ s.length + 1 ∧
      (resOk (parseStringAt s i) = true →
        residx (parseStringAt s i) ≤ s.length) := by
  rw [parseStringAt_spec]
  split
  · rename_i hc
    have hlt : ((s.drop (i + 1)).takeWhile (fun c => c != '"')).length
        < (s.drop (i + 1)).length := takeWhile_length_lt_of_contains hc
    rw [List.length_drop] at hlt
    simp only [residx, resOk]
    omega
  · simp only [residx, resOk]
    rw [List.length_drop]
    refine ⟨by omega, by omega, by simp⟩

theorem parseNumber_bounds {s : List Char} {i : Nat} (hi : i ≤ s.length) :
    i ≤ residx (parseNumber s i) ∧ residx (parseNumber s i) ≤ s.length := by
  rw [parseNumber_spec]
  have hlen : ((s.drop i).takeWhile isNumChar).length ≤ (s.drop i).length :=
    (List.takeWhile_prefix _).length_le
  rw [List.length_drop] at hlen
  split <;> (simp only [residx]; omega)

theorem parseBooleanOrNull_bounds {s : List Char} {i : Nat} :
    i ≤ residx (parseBooleanOrNull s i) ∧
      residx (parseBooleanOrNull s i) ≤ max i s.length := by
  have e4 : ("true".toList).length = 4 := rfl
  have e5 : ("false".toList).length = 5 := rfl
  have e4n : ("null".toList).length = 4 := rfl
  rw [parseBooleanOrNull]
  split
  · rename_i h
    have := startsWithAt_bound (by simp) h
    rw [e4] at this
    simp only [residx]
    omega
  · split
    · rename_i h
      have := startsWithAt_bound (by simp) h
      rw [e5] at this
      simp only [residx]
      omega
    · split
      · rename_i h
        have := startsWithAt_bound (by simp) h
        rw [e4n] at this
        simp only [residx]
        omega
      · simp only [residx]
        omega

theorem expectAndSkip_ok {c : Char} {s : List Char} {i j : Nat}
    (h : expectAndSkip c s i = Except.ok j) : j = i + 1 ∧ i < s.length := by
  rw [expectAndSkip] at h
  split at h
  · rename_i hg
    exact ⟨(Except.ok.injEq _ _ ▸ h).symm, getNextChar_lt hg⟩
  · exact Except.noConfusion h

theorem expectAndSkip_error {c : Char} {s : List Char} {i : Nat}
    {e : PyErr} {j : Nat}
    (h : expectAndSkip c s i = Except.error (e, j)) : j = i := by
  rw [expectAndSkip] at h
  split at h
  · exact Except.noConfusion h
  · injection h with h1
    exact (congrArg Prod.snd h1).symm

theorem afterElement_ge (s : List Char) (i : Nat) : i ≤ afterElement s i := by
  rw [afterElement]
  split
  · have h1 := skipWhitespace_ge s i
    have h2 := skipWhitespace_ge s (skipWhitespace s i + 1)
    omega
  · exact skipWhitespace_ge s i

theorem afterElement_le (s : List Char) (i : Nat) (hi : i ≤ s.length) :
    afterElement s i ≤ s.length := by
  rw [afterElement]
  split
  · rename_i h
    have hlt := getNextChar_lt h
    exact skipWhitespace_le s _ (by omega)
  · exact skipWhitespace_le s i hi

theorem residx_map_str (e : Except (PyErr × Nat) (List Char × Nat)) :
    residx (e.map (fun p => (JValue.str p.1, p.2))) = residx e := by
  cases e with
  | error a => rcases a with ⟨e1, e2⟩; rfl
  | ok a => rcases a with ⟨a1, a2⟩; rfl

theorem resOk_map_str (e : Except (PyErr × Nat) (List Char × Nat)) :
    resOk (e.map (fun p => (JValue.str p.1, p.2))) = resOk e := by
  cases e with
  | error a => rcases a with ⟨e1, e2⟩; rfl
  | ok a => rcases a with ⟨a1, a2⟩; rfl

/-- Joint cursor bounds for the three mutually recursive parser
functions, by induction on fuel: from a cursor within the buffer, every
parse step leaves the cursor at or after where it started (the cursor
never rewinds), never beyond `length + 1`, and within `length` whenever
the step succeeded. -/
theorem parseBoundsAux : ∀ fuel : Nat,
    (∀ s i r, i ≤ s.length → parseValue fuel s i = some r →
      i ≤ residx r ∧ residx r ≤ s.length + 1 ∧
        (resOk r = true → residx r ≤ s.length)) ∧
    (∀ (isObj : Bool) s i r, i < s.length →
      parseCollection fuel isObj s i = some r →
      i ≤ residx r ∧ residx r ≤ s.length + 1 ∧
        (resOk r = true → residx r ≤ s.length)) ∧
    (∀ (isObj : Bool) s i kvs xs r, i ≤ s.length →
      parseCollLoop fuel isObj s i kvs xs = some r →
      i ≤ residx r ∧ residx r ≤ s.length + 1 ∧
        (resOk r = true → residx r ≤ s.length)) := by
  intro fuel
  induction fuel with
  | zero =>
    refine ⟨?_, ?_, ?_⟩
    · intro s i r _ hr
      exact Option.noConfusion hr
    · intro isObj s i r _ hr
      exact Option.noConfusion hr
    · intro isObj s i kvs xs r _ hr
      exact Option.noConfusion hr
  | succ fuel ih =>
    obtain ⟨ihV, ihC, ihL⟩ := ih
    refine ⟨?_, ?_, ?_⟩
    · intro s i r hi hr
      rw [parseValue] at hr
      have hji := skipWhitespace_ge s i
      have hjl := skipWhitespace_le s i hi
      split at hr
      · injection hr with hr
        subst hr
        simp only [residx, resOk]
        refine ⟨by omega, by omega, by simp⟩
      · rename_i c hg
        have hclt := getNextChar_lt hg
        split at hr
        · have := ihC true s (skipWhitespace s i) r hclt hr
          exact ⟨by omega, this.2.1, this.2.2⟩
        · split at hr
          · have := ihC false s (skipWhitespace s i) r hclt hr
            exact ⟨by omega, this.2.1, this.2.2⟩
          · split at hr
            · injection hr with hr
              subst hr
              have hb := parseStringAt_bounds
                (s := s) (i := skipWhitespace s i) (by omega)
              rw [residx_map_str, resOk_map_str]
              exact ⟨by omega, hb.2.1, hb.2.2⟩
            · split at hr
              · injection hr with hr
                subst hr
                have hb := parseBooleanOrNull_bounds
                  (s := s) (i := skipWhitespace s i)
                have hm : max (skipWhitespace s i) s.length = s.length := by
                  omega
                rw [hm] at hb
                exact ⟨by omega, by omega, fun _ => hb.2⟩
              · split at hr
                · injection hr with hr
                  subst hr
                  have hb := parseNumber_bounds
                    (s := s) (i := skipWhitespace s i) (by omega)
                  exact ⟨by omega, by omega, fun _ => hb.2⟩
                · injection hr with hr
                  subst hr
                  simp only [residx, resOk]
                  refine ⟨by omega, by omega, fun _ => by omega⟩
    · intro isObj s i r hi hr
      rw [parseCollection] at hr
      have := ihL isObj s (i + 1) [] [] r (by omega) hr
      exact ⟨by omega, this.2.1, this.2.2⟩
    · intro isObj s i kvs xs r hi hr
      cases isObj with
      | true =>
        rw [parseCollLoop] at hr
        split at hr
        · rename_i hend
          injection hr with hr
          subst hr
          have := getNextChar_lt hend
          simp only [residx, resOk]
          refine ⟨by omega, by omega, fun _ => by omega⟩
        · split at hr
          · rename_i e hps
            rcases e with ⟨e1, e2⟩
            injection hr with hr
            subst hr
            have hb := parseStringAt_bounds (s := s) (i := i) hi
            rw [hps] at hb
            simp only [residx, resOk] at hb ⊢
            exact ⟨hb.1, hb.2.1, by simp⟩
          · rename_i key i1 hps
            have hb := parseStringAt_bounds (s := s) (i := i) hi
            rw [hps] at hb
            simp only [residx, resOk] at hb
            have hi1le : i1 ≤ s.length := hb.2.2 trivial
            have hi1ge : i ≤ i1 := hb.1
            split at hr
            · rename_i e hex
              rcases e with ⟨e1, e2⟩
              injection hr with hr
              subst hr
              have he := expectAndSkip_error hex
              simp only [residx, resOk]
              refine ⟨by omega, by omega, by simp⟩
            · rename_i i2 hex
              obtain ⟨hi2eq, hi1lt⟩ := expectAndSkip_ok hex
              split at hr
              · exact Option.noConfusion hr
              · rename_i e hpv
                injection hr with hr
                subst hr
                have hv := ihV s i2 _ (by omega) hpv
                simp only [residx, resOk] at hv ⊢
                rcases e with ⟨e1, e2⟩
                exact ⟨by omega, hv.2.1, by simp⟩
              · rename_i v i3 hpv
                have hv := ihV s i2 _ (by omega) hpv
                simp only [residx, resOk] at hv
                have hi3 : i3 ≤ s.length := hv.2.2 trivial
                have hl := ihL true s (afterElement s i3) _ _ r
                  (afterElement_le s i3 hi3) hr
                have hae := afterElement_ge s i3
                exact ⟨by omega, hl.2.1, hl.2.2⟩
      | false =>
        rw [parseCollLoop] at hr
        split at hr
        · rename_i hend
          injection hr with hr
          subst hr
          have := getNextChar_lt hend
          simp only [residx, resOk]
          refine ⟨by omega, by omega, fun _ => by omega⟩
        · split at hr
          · exact Option.noConfusion hr
          · rename_i e hpv
            injection hr with hr
            subst hr
            have hv := ihV s i _ hi hpv
            simp only [residx, resOk] at hv ⊢
            rcases e with ⟨e1, e2⟩
            exact ⟨hv.1, hv.2.1, by simp⟩
          · rename_i v i1 hpv
            have hv := ihV s i _ hi hpv
            simp only [residx, resOk] at hv
            have hi1 : i1 ≤ s.length := hv.2.2 trivial
            have hl := ihL false s (afterElement s i1) _ _ r
              (afterElement_le s i1 hi1) hr
            have hae := afterElement_ge s i1
            exact ⟨by omega, hl.2.1, hl.2.2⟩


/-- Claim C8: for every input on which the parse fails, the error
reaching the caller carries ErrorContext data (kind and position).  The
scanner indeed raises the structured ErrorManager with UNEXPECTED_TOKEN
at offset 6 for the spec's example (the offset of the closing brace,
immediately after the colon and its trailing space); the claim is a
code_bug because the facade `decode` that should propagate it has empty
`except JSONDecodeError:` suites (a SyntaxError; as visibly intended,
the error was being silently discarded, which spec section 9 itself
flags as a bug). -/
theorem parse_failure_yields_positioned_error :
    tidyParse "\x7b\"a\": \x7d" =
      some (Except.error
        (PyErr.errorManager TidyErrorType.unexpectedToken 6, 6)) := by
  simp [tidyParse, cleanJsonString, stripChars, removeComments, replaceTwo,
    findCommentClose, parseValue, parseCollection, parseCollLoop,
    afterElement, dictInsert, skipWhitespace, getNextChar, parseNumber,
    scanNumber, parseNumericValue, pyIntOfChars, pyFloatOfChars, floatVal,
    digitsToNat, isNumChar, isPySpace, parseStringAt, scanToQuote,
    parseBooleanOrNull, startsWithAt, expectAndSkip, Except.map]

/-- Claim C9: encode is claimed to fail exactly when no value is
present, and otherwise to write/return the 4-space-indented
serialization.  In the code every branch with a value present raises a
TypeError instead (dumps is called without its object argument; dump is
passed the unknown strict keyword), and a present-but-falsy value such
as the empty object takes the no-data ValueError branch. -/
theorem encode_never_serializes :
    encodeFacade none (some (JValue.obj [])) =
      EncodeResult.valueErrorNoData ∧
    encodeFacade none (some (JValue.int 1)) =
      EncodeResult.typeErrorMissingObj ∧
    encodeFacade (some ("out.json".toList)) (some (JValue.int 1)) =
      EncodeResult.typeErrorStrictKw ∧
    encodeFacade none none = EncodeResult.valueErrorNoData :=
  ⟨rfl, rfl, rfl, rfl⟩

/-- Claim C2 counterexample: the claim says parsing the object with a
trailing comma fails; in fact it succeeds (the loop re-checks the end
character right after consuming the comma, so the comma is silently
dropped). -/
theorem trailing_comma_object_parse_succeeds :
    tidyParse "\x7b\"a\": 1,\x7d" =
      some (Except.ok (JValue.obj [(("a".toList), JValue.int 1)], 9)) := by
  simp [tidyParse, cleanJsonString, stripChars, removeComments, replaceTwo,
    findCommentClose, parseValue, parseCollection, parseCollLoop,
    afterElement, dictInsert, skipWhitespace, getNextChar, parseNumber,
    scanNumber, parseNumericValue, pyIntOfChars, pyFloatOfChars, floatVal,
    digitsToNat, isNumChar, isPySpace, parseStringAt, scanToQuote,
    parseBooleanOrNull, startsWithAt, expectAndSkip, Except.map]

/-- Claim C2 (amended): trailing commas in objects and arrays are
tolerated and silently dropped, not rejected. -/
theorem trailing_comma_tolerated :
    tidyParse "\x7b\"a\": 1,\x7d" =
      some (Except.ok (JValue.obj [(("a".toList), JValue.int 1)], 9)) ∧
    tidyParse "[1, 2,]" =
      some (Except.ok (JValue.arr [JValue.int 1, JValue.int 2], 7)) := by
  constructor <;> simp [tidyParse, cleanJsonString, stripChars, removeComments, replaceTwo,
    findCommentClose, parseValue, parseCollection, parseCollLoop,
    afterElement, dictInsert, skipWhitespace, getNextChar, parseNumber,
    scanNumber, parseNumericValue, pyIntOfChars, pyFloatOfChars, floatVal,
    digitsToNat, isNumChar, isPySpace, parseStringAt, scanToQuote,
    parseBooleanOrNull, startsWithAt, expectAndSkip, Except.map]

/-- Claim C6 counterexample: on input consisting of a lone opening
brace (length 1 after normalization), the parse fails with the cursor
at offset 2, violating the claimed invariant offset less-or-equal
length: the object loop enters the string production at end of buffer,
which unconditionally advances past the opening-quote position. -/
theorem cursor_exceeds_length_on_lone_brace :
    tidyParse "\x7b" =
      some (Except.error (PyErr.valueErrorUnterminated 2, 2)) ∧
    (cleanJsonString ("\x7b".toList)).length = 1 := by
  constructor <;> simp [tidyParse, cleanJsonString, stripChars, removeComments, replaceTwo,
    findCommentClose, parseValue, parseCollection, parseCollLoop,
    afterElement, dictInsert, skipWhitespace, getNextChar, parseNumber,
    scanNumber, parseNumericValue, pyIntOfChars, pyFloatOfChars, floatVal,
    digitsToNat, isNumChar, isPySpace, parseStringAt, scanToQuote,
    parseBooleanOrNull, startsWithAt, expectAndSkip, Except.map]

/-- Claim C5 counterexample: the claim says a quote preceded by a
backslash does not terminate the string; in fact `parse_string` stops
at the first quote regardless, so the six-character input (quote, a,
backslash, quote, b, quote) decodes to the two-character string `a`
plus backslash with the cursor at offset 4. -/
theorem escaped_quote_terminates_string :
    tidyParse "\"a\\\"b\"" =
      some (Except.ok (JValue.str ("a\\".toList), 4)) := by
  simp [tidyParse, cleanJsonString, stripChars, removeComments, replaceTwo,
    findCommentClose, parseValue, parseCollection, parseCollLoop,
    afterElement, dictInsert, skipWhitespace, getNextChar, parseNumber,
    scanNumber, parseNumericValue, pyIntOfChars, pyFloatOfChars, floatVal,
    digitsToNat, isNumChar, isPySpace, parseStringAt, scanToQuote,
    parseBooleanOrNull, startsWithAt, expectAndSkip, Except.map]

/-- Claim C1: round-tripping a decoded value through encode fails.  The
value decoded from the plain object text re-serializes (modelling the
documented json.dumps with indent 4) to an indented form whose decode
fails at offset 7 with the expect-colon ValueError, because the object
key production never skips leading whitespace; and the facade encode
itself never produces text at all (TypeError: dumps lacks its object
argument). -/
theorem round_trip_of_decoded_object_fails :
    tidyParse "\x7b\"a\":1\x7d" =
      some (Except.ok (JValue.obj [(("a".toList), JValue.int 1)], 7)) ∧
    pyDumps (JValue.obj [(("a".toList), JValue.int 1)]) =
      ("\x7b\n    \"a\": 1\n\x7d".toList) ∧
    tidyParse "\x7b\n    \"a\": 1\n\x7d" =
      some (Except.error (PyErr.valueErrorExpected ':' 7, 7)) ∧
    encodeFacade none (some (JValue.obj [(("a".toList), JValue.int 1)])) =
      EncodeResult.typeErrorMissingObj := by
  refine ⟨?_, ?_, ?_, rfl⟩
  · simp [tidyParse, cleanJsonString, stripChars, removeComments, replaceTwo,
    findCommentClose, parseValue, parseCollection, parseCollLoop,
    afterElement, dictInsert, skipWhitespace, getNextChar, parseNumber,
    scanNumber, parseNumericValue, pyIntOfChars, pyFloatOfChars, floatVal,
    digitsToNat, isNumChar, isPySpace, parseStringAt, scanToQuote,
    parseBooleanOrNull, startsWithAt, expectAndSkip, Except.map]
  · simp [pyDumps, pyDumpsVal, pyDumpsMembers, pyDumpsItems, pyStrEscape,
      indentChars, intToDecimal, natDigitsAux]
  · simp [tidyParse, cleanJsonString, stripChars, removeComments, replaceTwo,
    findCommentClose, parseValue, parseCollection, parseCollLoop,
    afterElement, dictInsert, skipWhitespace, getNextChar, parseNumber,
    scanNumber, parseNumericValue, pyIntOfChars, pyFloatOfChars, floatVal,
    digitsToNat, isNumChar, isPySpace, parseStringAt, scanToQuote,
    parseBooleanOrNull, startsWithAt, expectAndSkip, Except.map]


/-- Claim C3: where the dispatcher's lookahead (after skipping
whitespace) is none of brace, bracket, quote, t, f, n, digit or minus,
the parse raises ErrorManager with UNEXPECTED_TOKEN at the current
offset - proved below for every such lookahead character.  The claim
also covers end of buffer, where the code instead crashes with
AttributeError (the bool False returned by get_next_char has no isdigit
method), shown here on the empty input: the claim is a code_bug there.
The digit test is at ASCII scope (Python str.isdigit also accepts some
non-ASCII digit characters). -/
theorem dispatcher_rejects_unknown_lookahead :
    tidyParse "" = some (Except.error (PyErr.attributeError, 0)) ∧
    (∀ (fuel : Nat) (s : List Char) (i : Nat) (c : Char),
      getNextChar s (skipWhitespace s i) = some c →
      c ≠ '{' → c ≠ '[' → c ≠ '"' →
      ¬(c = 't' ∨ c = 'f' ∨ c = 'n') → ¬(c.isDigit ∨ c = '-') →
      parseValue (fuel + 1) s i =
        some (Except.error
          (PyErr.errorManager TidyErrorType.unexpectedToken
            (skipWhitespace s i), skipWhitespace s i))) := by
  constructor
  · simp [tidyParse, cleanJsonString, stripChars, removeComments, replaceTwo,
    findCommentClose, parseValue, parseCollection, parseCollLoop,
    afterElement, dictInsert, skipWhitespace, getNextChar, parseNumber,
    scanNumber, parseNumericValue, pyIntOfChars, pyFloatOfChars, floatVal,
    digitsToNat, isNumChar, isPySpace, parseStringAt, scanToQuote,
    parseBooleanOrNull, startsWithAt, expectAndSkip, Except.map]
  · intro fuel s i c hg h1 h2 h3 h4 h5
    rw [parseValue, hg]
    simp [h1, h2, h3, h4, h5]

/-- Claim C3 witness: the unexpected-token branch evaluated at the
concrete input consisting of a single at-sign. -/
theorem dispatcher_rejects_unknown_lookahead_witness :
    parseValue 1 ("@".toList) 0 =
      some (Except.error
        (PyErr.errorManager TidyErrorType.unexpectedToken
          (skipWhitespace ("@".toList) 0), skipWhitespace ("@".toList) 0)) :=
  dispatcher_rejects_unknown_lookahead.2 0 ("@".toList) 0 '@'
    (by simp [getNextChar, skipWhitespace, isPySpace]) (by decide)
    (by decide) (by decide) (by decide) (by decide)

/-- Claim C4: the number production scans greedily over the numeric
character class and converts the captured substring with
parse_numeric_value - float when it contains a dot, e or E, int
otherwise, with a conversion failure raised as the invalid-number
ValueError carrying the production's start offset; plus the spec's
concrete examples, including the greedy capture and conversion failure
of 1.2.3 at start offset 0. -/
theorem number_production_greedy_kind :
    (∀ (s : List Char) (i : Nat), parseNumber s i =
      match parseNumericValue ((s.drop i).takeWhile isNumChar) i with
      | Except.error msg =>
        Except.error (msg, i + ((s.drop i).takeWhile isNumChar).length)
      | Except.ok v =>
        Except.ok (v, i + ((s.drop i).takeWhile isNumChar).length)) ∧
    tidyParse "42" = some (Except.ok (JValue.int 42, 2)) ∧
    tidyParse "4.2" = some (Except.ok (JValue.float (21 / 5), 3)) ∧
    tidyParse "1e3" = some (Except.ok (JValue.float 1000, 3)) ∧
    tidyParse "1.2.3" =
      some (Except.error (PyErr.valueErrorInvalidNumber 0, 5)) := by
  refine ⟨parseNumber_spec, ?_, ?_, ?_, ?_⟩
  · simp [tidyParse, cleanJsonString, stripChars, removeComments, replaceTwo,
    findCommentClose, parseValue, parseCollection, parseCollLoop,
    afterElement, dictInsert, skipWhitespace, getNextChar, parseNumber,
    scanNumber, parseNumericValue, pyIntOfChars, pyFloatOfChars, floatVal,
    digitsToNat, isNumChar, isPySpace, parseStringAt, scanToQuote,
    parseBooleanOrNull, startsWithAt, expectAndSkip, Except.map]
  · simp [tidyParse, cleanJsonString, stripChars, removeComments, replaceTwo,
    findCommentClose, parseValue, parseCollection, parseCollLoop,
    afterElement, dictInsert, skipWhitespace, getNextChar, parseNumber,
    scanNumber, parseNumericValue, pyIntOfChars, pyFloatOfChars, floatVal,
    digitsToNat, isNumChar, isPySpace, parseStringAt, scanToQuote,
    parseBooleanOrNull, startsWithAt, expectAndSkip, Except.map]
    norm_num
  · simp [tidyParse, cleanJsonString, stripChars, removeComments, replaceTwo,
    findCommentClose, parseValue, parseCollection, parseCollLoop,
    afterElement, dictInsert, skipWhitespace, getNextChar, parseNumber,
    scanNumber, parseNumericValue, pyIntOfChars, pyFloatOfChars, floatVal,
    digitsToNat, isNumChar, isPySpace, parseStringAt, scanToQuote,
    parseBooleanOrNull, startsWithAt, expectAndSkip, Except.map]
    norm_num
  · simp [tidyParse, cleanJsonString, stripChars, removeComments, replaceTwo,
    findCommentClose, parseValue, parseCollection, parseCollLoop,
    afterElement, dictInsert, skipWhitespace, getNextChar, parseNumber,
    scanNumber, parseNumericValue, pyIntOfChars, pyFloatOfChars, floatVal,
    digitsToNat, isNumChar, isPySpace, parseStringAt, scanToQuote,
    parseBooleanOrNull, startsWithAt, expectAndSkip, Except.map]

/-- Claim C5 (amended): the string production consumes the opening
quote and scans to the first quote character regardless of any
preceding backslash (the source has no escape handling); if end of
buffer is reached before any quote, it fails with the unterminated
ValueError whose start is one past the opening offset.  The second
conjunct evaluates the end-of-buffer failure on a concrete
unterminated input. -/
theorem string_production_scans_to_first_quote :
    (∀ (s : List Char) (i : Nat), parseStringAt s i =
      if (s.drop (i + 1)).contains '"' then
        Except.ok ((s.drop (i + 1)).takeWhile (fun c => c != '"'),
          i + 1 + ((s.drop (i + 1)).takeWhile (fun c => c != '"')).length + 1)
      else
        Except.error (PyErr.valueErrorUnterminated (i + 1),
          i + 1 + (s.drop (i + 1)).length)) ∧
    tidyParse "\"abc" =
      some (Except.error (PyErr.valueErrorUnterminated 1, 4)) := by
  refine ⟨parseStringAt_spec, ?_⟩
  simp [tidyParse, cleanJsonString, stripChars, removeComments, replaceTwo,
    findCommentClose, parseValue, parseCollection, parseCollLoop,
    afterElement, dictInsert, skipWhitespace, getNextChar, parseNumber,
    scanNumber, parseNumericValue, pyIntOfChars, pyFloatOfChars, floatVal,
    digitsToNat, isNumChar, isPySpace, parseStringAt, scanToQuote,
    parseBooleanOrNull, startsWithAt, expectAndSkip, Except.map]

/-- Claim C6 (amended): from any in-buffer offset, the cursor never
decreases during a parse, stays within length + 1 on every outcome, and
within length whenever the parse step succeeds; the claimed bound of
length itself fails only on the unterminated-string failure path (see
the counterexample on the lone-brace input). -/
theorem cursor_monotone_and_bounded (fuel : Nat) (s : List Char) (i : Nat)
    (r : Except (PyErr × Nat) (JValue × Nat)) (hi : i ≤ s.length)
    (hr : parseValue fuel s i = some r) :
    i ≤ residx r ∧ residx r ≤ s.length + 1 ∧
      (resOk r = true → residx r ≤ s.length) :=
  (parseBoundsAux fuel).1 s i r hi hr

/-- Claim C6 witness: the bounds evaluated on a completed concrete
parse of the single-digit input. -/
theorem cursor_monotone_and_bounded_witness :
    0 ≤ residx (Except.ok (JValue.int 1, 1)) ∧
      residx (Except.ok (JValue.int 1, 1)) ≤ ("1".toList).length + 1 ∧
      (resOk (Except.ok (JValue.int 1, 1)) = true →
        residx (Except.ok (JValue.int 1, 1)) ≤ ("1".toList).length) :=
  cursor_monotone_and_bounded 3 ("1".toList) 0 (Except.ok (JValue.int 1, 1))
    (by simp) (by simp [tidyParse, cleanJsonString, stripChars, removeComments, replaceTwo,
    findCommentClose, parseValue, parseCollection, parseCollLoop,
    afterElement, dictInsert, skipWhitespace, getNextChar, parseNumber,
    scanNumber, parseNumericValue, pyIntOfChars, pyFloatOfChars, floatVal,
    digitsToNat, isNumChar, isPySpace, parseStringAt, scanToQuote,
    parseBooleanOrNull, startsWithAt, expectAndSkip, Except.map])


theorem findCommentClose_cons {c : Char} {rest : List Char}
    (hn : c ≠ '\n') (hcr : ¬(c = '*' ∧ rest.head? = some '/')) :
    findCommentClose (c :: rest) = findCommentClose rest := by
  rw [findCommentClose.eq_def]
  split
  · rename_i heq
    exact absurd heq (by simp)
  · rename_i tail heq
    injection heq with h1 h2
    exact absurd h1 hn
  · rename_i rest1 heq
    injection heq with h1 h2
    exact absurd ⟨h1, by rw [h2]; rfl⟩ hcr
  · rename_i head tail hna hnb heq
    injection heq with h1 h2
    rw [h2]

theorem hasCloseSeq_cons_false {c : Char} {rest : List Char}
    (h : hasCloseSeq (c :: rest) = false) :
    hasCloseSeq rest = false ∧ ¬(c = '*' ∧ rest.head? = some '/') := by
  rw [hasCloseSeq.eq_def] at h
  split at h
  · exact absurd h (by simp)
  · rename_i head tail hna heq
    injection heq with h1 h2
    subst h2
    refine ⟨h, ?_⟩
    rintro ⟨hc, hh⟩
    subst hc
    cases rest with
    | nil => exact Option.noConfusion hh
    | cons r0 rs =>
      injection hh with hh
      exact hna rs h1.symm (by rw [hh])
  · rename_i heq
    exact absurd heq (by simp)

theorem findCommentClose_append : ∀ (b post : List Char),
    b.contains '\n' = false → hasCloseSeq b = false →
    findCommentClose (b ++ '*' :: '/' :: post) = some post := by
  intro b
  induction b with
  | nil => intro post _ _; rfl
  | cons c b ih =>
    intro post hn hc
    obtain ⟨hc2, hcr⟩ := hasCloseSeq_cons_false hc
    have hcn : c ≠ '\n' := by
      intro hcc
      subst hcc
      simp [List.contains_cons] at hn
    have hn2 : b.contains '\n' = false := by
      simp only [List.contains_cons, Bool.or_eq_false_iff] at hn
      exact hn.2
    rw [List.cons_append, findCommentClose_cons hcn ?side, ih post hn2 hc2]
    case side =>
      rintro ⟨hcc, hh⟩
      apply hcr
      refine ⟨hcc, ?_⟩
      cases b with
      | nil =>
        rw [List.nil_append, List.head?] at hh
        injection hh with hh
        exact absurd hh (by decide)
      | cons b0 bs =>
        rw [List.cons_append, List.head?] at hh
        rw [List.head?]
        exact hh

theorem removeComments_open {rest post : List Char}
    (h : findCommentClose rest = some post) :
    removeComments ('/' :: '*' :: rest) = removeComments post := by
  rw [removeComments]
  split
  · rename_i rest2 heq
    rw [h] at heq
    injection heq with heq
    rw [heq]
  · rename_i heq
    rw [h] at heq
    exact Option.noConfusion heq

theorem removeComments_cons {c : Char} (rest : List Char) (h : c ≠ '/') :
    removeComments (c :: rest) = c :: removeComments rest := by
  rw [removeComments.eq_def]
  split
  · rename_i rest1 heq
    injection heq with h1 h2
    exact absurd h1 h
  · rename_i c1 rest1 hna heq
    injection heq with h1 h2
    rw [h1, h2]
  · rename_i heq
    exact absurd heq (by simp)

theorem removeComments_append : ∀ (pre b post : List Char),
    pre.contains '/' = false → b.contains '\n' = false →
    hasCloseSeq b = false →
    removeComments (pre ++ '/' :: '*' :: (b ++ '*' :: '/' :: post)) =
      pre ++ removeComments post := by
  intro pre
  induction pre with
  | nil =>
    intro b post _ hn hc
    rw [List.nil_append, List.nil_append,
      removeComments_open (findCommentClose_append b post hn hc)]
  | cons c pre ih =>
    intro b post hp hn hc
    have hcs : c ≠ '/' := by
      intro hcc
      subst hcc
      simp [List.contains_cons] at hp
    have hp2 : pre.contains '/' = false := by
      simp only [List.contains_cons, Bool.or_eq_false_iff] at hp
      exact hp.2
    rw [List.cons_append, removeComments_cons _ hcs, ih b post hp2 hn hc,
      List.cons_append]

/-- Claim C10 counterexample: the removal is performed by a lazy regex
whose dot does not match a newline, so a comment-shaped sequence
containing a newline survives the normalizer unchanged - the claim's
"every comment sequence" is too strong. -/
theorem multiline_comment_survives_normalizer :
    cleanJsonString ("/*\n*/".toList) = ("/*\n*/".toList) := by
  simp [cleanJsonString, stripChars, removeComments, findCommentClose,
    replaceTwo, isPySpace]

/-- Claim C10 (amended): the normalizer removes every newline-free
comment sequence regardless of surrounding context - the removal pass
never tracks string-literal state - so in particular a comment-shaped
substring inside a string value is stripped before the scanner runs,
altering the string (second conjunct: the value x/*y*/z becomes xz). -/
theorem comment_removal_ignores_string_context :
    (∀ (pre b post : List Char),
      pre.contains '/' = false → b.contains '\n' = false →
      hasCloseSeq b = false →
      removeComments (pre ++ '/' :: '*' :: (b ++ '*' :: '/' :: post)) =
        pre ++ removeComments post) ∧
    cleanJsonString ("\x7b\"a\": \"x/*y*/z\"\x7d".toList) =
      ("\x7b\"a\": \"xz\"\x7d".toList) := by
  refine ⟨removeComments_append, ?_⟩
  simp [cleanJsonString, stripChars, removeComments, findCommentClose,
    replaceTwo, isPySpace]

/-- Claim C10 witness: the context-free removal evaluated at a concrete
split (prefix ab, body x, suffix cd). -/
theorem comment_removal_ignores_string_context_witness :
    removeComments
        (("ab".toList) ++ '/' :: '*' :: (("x".toList)
          ++ '*' :: '/' :: ("cd".toList))) =
      ("ab".toList) ++ removeComments ("cd".toList) :=
  comment_removal_ignores_string_context.1 ("ab".toList) ("x".toList)
    ("cd".toList) (by decide) (by decide) (by decide)

/-- Claim C7: the literal production recognizes exactly the prefixes
true, false and null at the cursor, yields the corresponding value and
advances by the literal's length; with none of the three prefixes
present it raises ErrorManager with UNEXPECTED_TOKEN at the current
offset.  The concrete conjuncts check the spec's examples, including
that the production on the input false-plus-space leaves the cursor at
offset 5, on the space (the full pipeline would first strip that
trailing space in clean_json_string, so this example is about the
production itself, as the claim states it). -/
theorem literal_production_spec :
    (∀ (s : List Char) (i : Nat) (v : JValue) (j : Nat),
      parseBooleanOrNull s i = Except.ok (v, j) →
      (startsWithAt s i ("true".toList) = true ∧ v = JValue.bool true ∧
        j = i + 4) ∨
      (startsWithAt s i ("false".toList) = true ∧ v = JValue.bool false ∧
        j = i + 5) ∨
      (startsWithAt s i ("null".toList) = true ∧ v = JValue.null ∧
        j = i + 4)) ∧
    (∀ (s : List Char) (i : Nat) (e : PyErr) (j : Nat),
      parseBooleanOrNull s i = Except.error (e, j) →
      e = PyErr.errorManager TidyErrorType.unexpectedToken i ∧ j = i ∧
      startsWithAt s i ("true".toList) = false ∧
      startsWithAt s i ("false".toList) = false ∧
      startsWithAt s i ("null".toList) = false) ∧
    tidyParse "true" = some (Except.ok (JValue.bool true, 4)) ∧
    tidyParse "null" = some (Except.ok (JValue.null, 4)) ∧
    parseBooleanOrNull ("false ".toList) 0 =
      Except.ok (JValue.bool false, 5) ∧
    getNextChar ("false ".toList) 5 = some ' ' := by
  refine ⟨?_, ?_, ?_, ?_, rfl, rfl⟩
  · intro s i v j h
    rw [parseBooleanOrNull] at h
    split at h
    · rename_i ht
      simp only [Except.ok.injEq, Prod.mk.injEq] at h
      exact Or.inl ⟨ht, h.1.symm, h.2.symm⟩
    · split at h
      · rename_i ht hf
        simp only [Except.ok.injEq, Prod.mk.injEq] at h
        exact Or.inr (Or.inl ⟨hf, h.1.symm, h.2.symm⟩)
      · split at h
        · rename_i ht hf hn
          simp only [Except.ok.injEq, Prod.mk.injEq] at h
          exact Or.inr (Or.inr ⟨hn, h.1.symm, h.2.symm⟩)
        · exact Except.noConfusion h
  · intro s i e j h
    rw [parseBooleanOrNull] at h
    split at h
    · exact Except.noConfusion h
    · split at h
      · exact Except.noConfusion h
      · split at h
        · exact Except.noConfusion h
        · rename_i ht hf hn
          simp only [Except.error.injEq, Prod.mk.injEq] at h
          exact ⟨h.1.symm, h.2.symm, Bool.eq_false_iff.mpr ht,
            Bool.eq_false_iff.mpr hf, Bool.eq_false_iff.mpr hn⟩
  · simp [tidyParse, cleanJsonString, stripChars, removeComments, replaceTwo,
    findCommentClose, parseValue, parseCollection, parseCollLoop,
    afterElement, dictInsert, skipWhitespace, getNextChar, parseNumber,
    scanNumber, parseNumericValue, pyIntOfChars, pyFloatOfChars, floatVal,
    digitsToNat, isNumChar, isPySpace, parseStringAt, scanToQuote,
    parseBooleanOrNull, startsWithAt, expectAndSkip, Except.map]
  · simp [tidyParse, cleanJsonString, stripChars, removeComments, replaceTwo,
    findCommentClose, parseValue, parseCollection, parseCollLoop,
    afterElement, dictInsert, skipWhitespace, getNextChar, parseNumber,
    scanNumber, parseNumericValue, pyIntOfChars, pyFloatOfChars, floatVal,
    digitsToNat, isNumChar, isPySpace, parseStringAt, scanToQuote,
    parseBooleanOrNull, startsWithAt, expectAndSkip, Except.map]

/-- Claim C7 witness: the success inversion evaluated on the concrete
input false-plus-space at offset 0. -/
theorem literal_production_spec_witness :
    (startsWithAt ("false ".toList) 0 ("true".toList) = true ∧
      JValue.bool false = JValue.bool true ∧ (5 : Nat) = 0 + 4) ∨
    (startsWithAt ("false ".toList) 0 ("false".toList) = true ∧
      JValue.bool false = JValue.bool false ∧ (5 : Nat) = 0 + 5) ∨
    (startsWithAt ("false ".toList) 0 ("null".toList) = true ∧
      JValue.bool false = JValue.null ∧ (5 : Nat) = 0 + 4) :=
  literal_production_spec.1 ("false ".toList) 0 (JValue.bool false) 5 rfl
